import Mathlib

/-!
# ToDoList_React: the remote store client and the task state coordinator

A shallow embedding of `src/service/todo_service.js` (the object `TodoService`)
and of `src/context/ToDoProvider.jsx` (the component `TodoProvider`), followed
by the properties of the two that the specification states.

Conventions of the embedding

* JavaScript values are the type `JsVal`.  Numbers are the integral ones;
  objects and arrays carry the reference that `===` compares.  An object is
  a plain object (its prototype is `Object.prototype`) whose own properties
  hold values of `JsVal`, so none of them is callable.
* An object is written as the sequence of its property definitions, in the
  order an object literal lists them; a later definition of a key overrides
  an earlier one (`get` returns the last).  The literal `{ id: e, ...data }`
  is therefore the list `("id", e) :: ownProps data`.
* `await fetch(url, init)` is a call of the remote store: the store `Net`
  answers a request, given every exchange made before it, with a response
  or with a rejection.  Every exchange is appended to a log.
* An `async` function that may throw returns `Except Thrown _` together
  with the log; `console.log` and `console.error` are not modelled.
* A template literal that interpolates an identifier is kept as its literal
  text and the interpolated value (`Url`); whether the conversion of that
  value to a string throws is `stringifies`.
* The request body is the value handed to `JSON.stringify`.
* The operations of the coordinator run one after the other (no overlap).
-/

namespace Todo

/-! ## Values -/

/-- JavaScript values that occur in the program. -/
inductive JsVal where
  | undefined : JsVal
  | null : JsVal
  | bool (b : Bool) : JsVal
  | num (n : Int) : JsVal
  | str (s : String) : JsVal
  /-- A string of one UTF-16 code unit that is half of a surrogate pair. -/
  | surrogate (unit : Nat) : JsVal
  | obj (ref : Nat) (fields : List (String × JsVal)) : JsVal
  | arr (ref : Nat) (items : List JsVal) : JsVal

/-- The property definitions of an object. -/
abbrev Record := List (String × JsVal)

/-- What a JavaScript `throw` or a rejected promise carries. -/
inductive Thrown where
  /-- The value of `new Error(message)`. -/
  | error (message : String) : Thrown
  /-- A `TypeError` raised by the engine (property of `null`, not a function). -/
  | typeError : Thrown
  /-- The reason `fetch` or `response.json()` rejected with. -/
  | rejected (reason : String) : Thrown
  deriving DecidableEq, Repr

/-- The value of the own property `k` among the definitions of an object:
the last definition of `k`, `undefined` when there is none. -/
def get (r : Record) (k : String) : JsVal :=
  r.foldl (fun acc p => if p.1 = k then p.2 else acc) JsVal.undefined

/-- Whether the object has an own property `k`. -/
def hasKey (r : Record) (k : String) : Bool :=
  r.any (fun p => decide (p.1 = k))

/-- JavaScript truthiness (`!v` is its negation). -/
def truthy : JsVal → Bool
  | .undefined => false
  | .null => false
  | .bool b => b
  | .num n => decide (n ≠ 0)
  | .str s => decide (s ≠ "")
  | .surrogate _ => true
  | .obj _ _ => true
  | .arr _ _ => true

/-- Strict equality `a === b`. -/
def strictEq : JsVal → JsVal → Bool
  | .undefined, .undefined => true
  | .null, .null => true
  | .bool a, .bool b => decide (a = b)
  | .num a, .num b => decide (a = b)
  | .str a, .str b => decide (a = b)
  | .surrogate a, .surrogate b => decide (a = b)
  | .obj r _, .obj r' _ => decide (r = r')
  | .arr r _, .arr r' _ => decide (r = r')
  | _, _ => false

/-- The index keys of an array or of the characters of a string. -/
def indexed (vs : List JsVal) : Record :=
  vs.enum.map (fun p => (toString p.1, p.2))

/-- The UTF-16 code units of a string, each as a string of length one: a
character of the basic plane is one unit, any other character is the two
halves of its surrogate pair. -/
def units (s : String) : List JsVal :=
  (s.toList.map (fun c =>
    if c.toNat < 65536 then [JsVal.str (String.singleton c)]
    else [JsVal.surrogate (55296 + (c.toNat - 65536) / 1024),
          JsVal.surrogate (56320 + (c.toNat - 65536) % 1024)])).flatten

/-- The own enumerable properties that `...v` copies; a string has one per
code unit. -/
def ownProps : JsVal → Record
  | .obj _ fields => fields
  | .arr _ items => indexed items
  | .str s => indexed (units s)
  | .surrogate u => [("0", .surrogate u)]
  | _ => []

/-- The three property names the program reads; no prototype defines any
of them. -/
inductive PropName where
  | id | entry_id | data
  deriving DecidableEq, Repr

/-- The key of a property name. -/
def PropName.key : PropName → String
  | .id => "id"
  | .entry_id => "entry_id"
  | .data => "data"

/-- Property read `v.id`, `v.entry_id` or `v.data` (also one name of a
destructuring pattern): a `TypeError` on `undefined` and `null`, the own
property on an object, `undefined` on every other value. -/
def prop (v : JsVal) (n : PropName) : Except Thrown JsVal :=
  match v with
  | .undefined => .error .typeError
  | .null => .error .typeError
  | .obj _ fields => .ok (get fields n.key)
  | _ => .ok .undefined

mutual
/-- Whether the conversion to a string in a template literal completes.  An
object with an own `toString` (which is not callable) has no method left
that gives a primitive, and the conversion throws a `TypeError`; without it
`Object.prototype.toString` answers.  An array joins the conversions of its
elements. -/
def stringifies : JsVal → Bool
  | .obj _ fields => !hasKey fields "toString"
  | .arr _ items => stringifiesAll items
  | _ => true
/-- Whether the conversion of every element completes. -/
def stringifiesAll : List JsVal → Bool
  | [] => true
  | v :: rest => stringifies v && stringifiesAll rest
end

/-! ## The remote store -/

/-- The four request methods. -/
inductive Method where
  | GET | POST | PUT | DELETE
  deriving DecidableEq, Repr

/-- A template literal: its text and the value interpolated at its end, once
the conversion of that value to a string has completed. -/
structure Url where
  text : String
  key : Option JsVal

/-- The value handed to `JSON.stringify` as the request body. -/
inductive Body where
  /-- The literal `{ table_name: TABLE, data: todo }`. -/
  | store (table_name : String) (data : JsVal) : Body
  /-- The literal `{ data: fields }`. -/
  | update (data : Record) : Body

/-- The arguments of a `fetch` call. -/
structure Request where
  url : Url
  method : Method
  contentType : Option String
  body : Option Body

/-- A settled response: its status, what `text()` gives and what `json()`
gives (or rejects with).  A rejecting `text()` is left out: the program reads
the text only on a path that fails either way. -/
structure Response where
  status : Nat
  text : String
  json : Except Thrown JsVal

/-- How `await fetch(...)` settles. -/
inductive FetchOutcome where
  | rejected (e : Thrown) : FetchOutcome
  | response (res : Response) : FetchOutcome

/-- One request and how it settled. -/
abbrev Exchange := Request × FetchOutcome

/-- The exchanges made so far, oldest first. -/
abbrev Log := List Exchange

/-- The remote store and the network: any answer, which may depend on
everything exchanged before. -/
abbrev Net := Log → Request → FetchOutcome

/-- The call `await fetch(url, init)`. -/
def fetch (net : Net) (req : Request) (log : Log) : FetchOutcome × Log :=
  (net log req, log ++ [(req, net log req)])

/-! ## `src/service/todo_service.js` -/

def BASE_URL : String := "https://unidb.openlab.uninorte.edu.co"

def CONTRACT_KEY : String := "e83b7ac8-bdad-4bb8-a532-6aaa5fddefa4"

def TABLE : String := "todos"

def jsonContentType : String := "application/json; charset=UTF-8"

namespace TodoService

/-- The request of `getTodos`. -/
def listRequest : Request :=
  { url := { text := BASE_URL ++ "/" ++ CONTRACT_KEY ++ "/data/" ++ TABLE ++ "/all?format=json"
             key := none }
    method := .GET
    contentType := none
    body := none }

/-- The callback of `rawData.map`: `({ entry_id, data }) => ({ id: entry_id, ...data })`. -/
def toTodo (entry : JsVal) : Except Thrown Record :=
  match prop entry .entry_id, prop entry .data with
  | .ok entry_id, .ok data => .ok (("id", entry_id) :: ownProps data)
  | .error e, _ => .error e
  | _, .error e => .error e

/-- The call `items.map(callback)` with the callback `toTodo`: the entries
in order, left at the first throw. -/
def mapTodos : List JsVal → Except Thrown (List Record)
  | [] => .ok []
  | entry :: rest =>
    match toTodo entry with
    | .error e => .error e
    | .ok todo =>
      match mapTodos rest with
      | .error e => .error e
      | .ok todos => .ok (todo :: todos)

/-- The lines `const rawData = decoded.data || []` and `rawData.map(...)`;
a truthy `data` that is not an array has no `map` to call. -/
def mapEntries (decoded : JsVal) : Except Thrown (List Record) :=
  match prop decoded .data with
  | .error e => .error e
  | .ok d =>
    if truthy d then
      match d with
      | .arr _ items => mapTodos items
      | _ => .error .typeError
    else .ok []

/-- The body of `getTodos` once `fetch` has settled. -/
def getTodosSettled (o : FetchOutcome) : Except Thrown (List Record) :=
  match o with
  | .rejected e => .error e
  | .response res =>
    if res.status ≠ 200 then
      .error (.error ("Error " ++ toString res.status ++ ": " ++ res.text))
    else
      match res.json with
      | .error e => .error e
      | .ok decoded => mapEntries decoded

/-- The method `getTodos`. -/
def getTodos (net : Net) (log : Log) : Except Thrown (List Record) × Log :=
  match fetch net listRequest log with
  | (o, log1) => (getTodosSettled o, log1)

/-- Whether a settled request is a response with status 200. -/
def settled (o : FetchOutcome) : Bool :=
  match o with
  | .rejected _ => false
  | .response res => decide (res.status = 200)

/-- The request of `addTodo`. -/
def storeRequest (todo : JsVal) : Request :=
  { url := { text := BASE_URL ++ "/" ++ CONTRACT_KEY ++ "/data/store", key := none }
    method := .POST
    contentType := some jsonContentType
    body := some (.store TABLE todo) }

/-- The method `addTodo`. -/
def addTodo (net : Net) (todo : JsVal) (log : Log) : Except Thrown Bool × Log :=
  match fetch net (storeRequest todo) log with
  | (.response res, log1) =>
    if res.status = 200 then (.ok true, log1)
    else (.ok false, log1)
  | (.rejected _, log1) => (.ok false, log1)

/-- The request of `updateTodo`. -/
def updateRequest (id : JsVal) (fields : Record) : Request :=
  { url := { text := BASE_URL ++ "/" ++ CONTRACT_KEY ++ "/data/" ++ TABLE ++ "/update/"
             key := some id }
    method := .PUT
    contentType := some jsonContentType
    body := some (.update fields) }

/-- The rest pattern `const { id, ...fields } = todo`: the own properties
other than `id`. -/
def restFields (todo : JsVal) : Record :=
  (ownProps todo).filter (fun p => decide (p.1 ≠ "id"))

/-- The method `updateTodo`.  The guard, the rest pattern and the template
literal of the URL come before the `try`: what they throw leaves the method. -/
def updateTodo (net : Net) (todo : JsVal) (log : Log) : Except Thrown Bool × Log :=
  match prop todo .id with
  | .error e => (.error e, log)
  | .ok id =>
    if !truthy id then (.error (.error "todo.id is required"), log)
    else if !stringifies id then (.error .typeError, log)
    else
      match fetch net (updateRequest id (restFields todo)) log with
      | (.response res, log1) =>
        if res.status = 200 then (.ok true, log1)
        else (.ok false, log1)
      | (.rejected _, log1) => (.ok false, log1)

/-- The request of `deleteTodo`. -/
def deleteRequest (id : JsVal) : Request :=
  { url := { text := BASE_URL ++ "/" ++ CONTRACT_KEY ++ "/data/" ++ TABLE ++ "/delete/"
             key := some id }
    method := .DELETE
    contentType := some jsonContentType
    body := none }

/-- The line `typeof todoOrId === "string" ? todoOrId : todoOrId.id`. -/
def resolveId (todoOrId : JsVal) : Except Thrown JsVal :=
  match todoOrId with
  | .str s => .ok (.str s)
  | .surrogate u => .ok (.surrogate u)
  | v => prop v .id

/-- The method `deleteTodo`.  The guard and the template literal of the URL
come before the `try`: what they throw leaves the method. -/
def deleteTodo (net : Net) (todoOrId : JsVal) (log : Log) : Except Thrown Bool × Log :=
  match resolveId todoOrId with
  | .error e => (.error e, log)
  | .ok id =>
    if !truthy id then (.error (.error "todo.id is required"), log)
    else if !stringifies id then (.error .typeError, log)
    else
      match fetch net (deleteRequest id) log with
      | (.response res, log1) =>
        if res.status = 200 then (.ok true, log1)
        else (.ok false, log1)
      | (.rejected _, log1) => (.ok false, log1)

/-- The loop `for (const todo of all) await this.deleteTodo(todo.id)`; a
throw leaves the loop. -/
def deleteEach (net : Net) : List Record → Log → Except Thrown Unit × Log
  | [], log => (.ok (), log)
  | todo :: rest, log =>
    match deleteTodo net (get todo "id") log with
    | (.error e, log1) => (.error e, log1)
    | (.ok _, log1) => deleteEach net rest log1

/-- The method `deleteAllTodos`. -/
def deleteAllTodos (net : Net) (log : Log) : Bool × Log :=
  match getTodos net log with
  | (.error _, log1) => (false, log1)
  | (.ok all, log1) =>
    match deleteEach net all log1 with
    | (.error _, log2) => (false, log2)
    | (.ok _, log2) => (true, log2)

end TodoService

/-! ## `src/context/ToDoProvider.jsx` -/

/-- The three `useState` cells of `TodoProvider`; `error` is `null` or a
message. -/
structure State where
  todos : List Record
  loading : Bool
  error : Option String

namespace TodoProvider

/-- The initial values of the three cells. -/
def initial : State :=
  { todos := [], loading := true, error := none }

/-- The function `fetchTodos`, exposed as `refreshTodos`. -/
def fetchTodos (net : Net) (s : State) (log : Log) : State × Log :=
  let s1 := { s with loading := true }
  match TodoService.getTodos net log with
  | (.ok data, log1) =>
    let s2 := { s1 with todos := data }
    ({ s2 with loading := false }, log1)
  | (.error _, log1) =>
    let s2 := { s1 with error := some "Failed to fetch todos." }
    ({ s2 with loading := false }, log1)

/-- The function `createTodo`. -/
def createTodo (net : Net) (todoData : JsVal) (s : State) (log : Log) : State × Log :=
  let s1 := { s with loading := true }
  match TodoService.addTodo net todoData log with
  | (.ok _, log1) =>
    let (s2, log2) := fetchTodos net s1 log1
    ({ s2 with loading := false }, log2)
  | (.error _, log1) =>
    let s2 := { s1 with error := some "Failed to create todo." }
    ({ s2 with loading := false }, log1)

/-- The function `updateTodo`. -/
def updateTodo (net : Net) (todo : JsVal) (s : State) (log : Log) : State × Log :=
  let s1 := { s with loading := true }
  match TodoService.updateTodo net todo log with
  | (.ok _, log1) =>
    let (s2, log2) := fetchTodos net s1 log1
    ({ s2 with loading := false }, log2)
  | (.error _, log1) =>
    let s2 := { s1 with error := some "Failed to update todo." }
    ({ s2 with loading := false }, log1)

/-- The function `deleteTodo`; the updater `prev.filter((t) => t.id !== id)`
is applied to the current collection. -/
def deleteTodo (net : Net) (id : JsVal) (s : State) (log : Log) : State × Log :=
  let s1 := { s with loading := true }
  match TodoService.deleteTodo net id log with
  | (.ok success, log1) =>
    let s2 :=
      if success then
        { s1 with todos := s1.todos.filter (fun t => !strictEq (get t "id") id) }
      else s1
    ({ s2 with loading := false }, log1)
  | (.error _, log1) =>
    ({ s1 with loading := false }, log1)

/-- A call of one of the four operations the context exposes. -/
inductive Op where
  | refreshTodos : Op
  | createTodo (todoData : JsVal) : Op
  | updateTodo (todo : JsVal) : Op
  | deleteTodo (id : JsVal) : Op

/-- One operation, run to completion. -/
def step (net : Net) (op : Op) (c : State × Log) : State × Log :=
  match op with
  | .refreshTodos => fetchTodos net c.1 c.2
  | .createTodo todoData => createTodo net todoData c.1 c.2
  | .updateTodo todo => updateTodo net todo c.1 c.2
  | .deleteTodo id => deleteTodo net id c.1 c.2

/-- A sequence of operations, each awaited before the next starts. -/
def run (net : Net) (ops : List Op) (c : State × Log) : State × Log :=
  ops.foldl (fun c op => step net op c) c

/-- An exchange that is a list request which `getTodos` turns into a throw:
a rejection, a status other than 200, or a body it cannot map. -/
def listFailed (x : Exchange) : Bool :=
  decide (x.1.method = .GET) &&
    (match TodoService.getTodosSettled x.2 with
      | .ok _ => false
      | .error _ => true)

/-- An `updateTodo` call whose argument makes the service throw before any
request: the argument is `null` or `undefined`, its `id` is missing or
falsy, or its `id` cannot be converted to a string for the URL. -/
def updateThrows (op : Op) : Bool :=
  match op with
  | .updateTodo todo =>
    (match prop todo .id with
      | .ok id => !truthy id || !stringifies id
      | .error _ => true)
  | _ => false

end TodoProvider

/-! ## Sample inputs -/

/-- A store that answers every request with the same outcome. -/
def constNet (o : FetchOutcome) : Net := fun _ _ => o

/-- A response with the given status and decoded body. -/
def jsonResponse (status : Nat) (decoded : JsVal) : FetchOutcome :=
  .response { status := status, text := "", json := .ok decoded }

/-- The body `{ data: [ { entry_id: "e1", data: { id: "x", name: "a" } } ] }`. -/
def bodyWithPayloadId : JsVal :=
  .obj 0 [("data", .arr 1 [.obj 2 [("entry_id", .str "e1"),
    ("data", .obj 3 [("id", .str "x"), ("name", .str "a")])]])]

/-- The body `{ data: [] }`. -/
def bodyEmpty : JsVal := .obj 0 [("data", .arr 1 [])]

/-- The entry `{ entry_id: id, data: { name: name } }`. -/
def entry (ref : Nat) (id name : String) : JsVal :=
  .obj ref [("entry_id", .str id), ("data", .obj (ref + 1) [("name", .str name)])]

/-- The body `{ data: [A, B, C] }` with entry identifiers `"a"`, `"b"`, `"c"`. -/
def bodyABC : JsVal :=
  .obj 0 [("data", .arr 1 [entry 2 "a" "A", entry 4 "b" "B", entry 6 "c" "C"])]

/-- The body `{ data: [A, B, C] }` where the entry identifier of `B` is the
empty string. -/
def bodyEmptyEntryId : JsVal :=
  .obj 0 [("data", .arr 1 [entry 2 "a" "A", entry 4 "" "B", entry 6 "c" "C"])]

/-- A store that answers the GET request with status 200 and the given body
and every other request with status 500. -/
def listOnlyNet (decoded : JsVal) : Net :=
  fun _ req => if req.method = .GET then jsonResponse 200 decoded else jsonResponse 500 .null

/-- An idle state with an empty collection and no error. -/
def idleState : State :=
  { todos := [], loading := false, error := none }

/-- A run of six operations: a create, an update, a delete, a delete with
the empty string, a delete with `{ id: { toString: 1 } }` and a refresh. -/
def sampleOps : List TodoProvider.Op :=
  [.createTodo (.obj 0 [("name", .str "X")]),
   .updateTodo (.obj 0 [("id", .str "e1"), ("name", .str "Y")]),
   .deleteTodo (.str "a"),
   .deleteTodo (.str ""),
   .deleteTodo (.obj 0 [("id", .obj 1 [("toString", .num 1)])]),
   .refreshTodos]

/-- A state that shows an earlier error. -/
def staleErrorState : State :=
  { todos := [], loading := false, error := some "Failed to fetch todos." }

/-- A collection of two records, with ids `"a"` and `"b"`. -/
def stateAB : State :=
  { todos := [[("id", .str "a"), ("name", .str "A")], [("id", .str "b"), ("name", .str "B")]]
    loading := false
    error := none }

/-- The record `{ name: "no id" }`. -/
def todoNoId : JsVal := .obj 0 [("name", .str "no id")]

/-- The record `{ id: "", name: "x" }`. -/
def todoEmptyId : JsVal := .obj 0 [("id", .str ""), ("name", .str "x")]

/-- The record `{ id: { toString: 1 }, name: "x" }`. -/
def todoUnprintableId : JsVal :=
  .obj 0 [("id", .obj 1 [("toString", .num 1)]), ("name", .str "x")]

/-- The record `{ id: "e1", name: "Y" }`. -/
def todoE1 : JsVal := .obj 0 [("id", .str "e1"), ("name", .str "Y")]

/-! ## Properties of the values -/

theorem get_nil (k : String) : get [] k = .undefined := rfl

theorem get_append_singleton (r : Record) (k' : String) (v : JsVal) (k : String) :
    get (r ++ [(k', v)]) k = if k' = k then v else get r k := by
  simp [get, List.foldl_append]

theorem hasKey_append_singleton (r : Record) (k' : String) (v : JsVal) (k : String) :
    hasKey (r ++ [(k', v)]) k = (hasKey r k || decide (k' = k)) := by
  unfold hasKey
  rw [List.any_append]
  simp

/-- Removing the definitions of one key leaves every other key as it was. -/
theorem get_filter_ne (r : Record) (k0 k : String) (h : k ≠ k0) :
    get (r.filter (fun p => decide (p.1 ≠ k0))) k = get r k := by
  induction r using List.reverseRecOn with
  | nil => rfl
  | append_singleton r p ih =>
    obtain ⟨k', v⟩ := p
    rw [List.filter_append, get_append_singleton]
    by_cases hk : k' = k0
    · subst hk
      have hne : ¬ k' = k := fun e => h e.symm
      simpa [hne] using ih
    · simp only [List.filter_cons, hk, ne_eq, not_false_eq_true, decide_True, List.filter_nil,
        if_true]
      rw [get_append_singleton, ih]

/-- After removing the definitions of a key, the key is absent. -/
theorem hasKey_filter_self (r : Record) (k0 : String) :
    hasKey (r.filter (fun p => decide (p.1 ≠ k0))) k0 = false := by
  simp [hasKey, List.any_filter]

theorem hasKey_filter_ne (r : Record) (k0 k : String) (h : k ≠ k0) :
    hasKey (r.filter (fun p => decide (p.1 ≠ k0))) k = hasKey r k := by
  induction r with
  | nil => rfl
  | cons p r ih =>
    by_cases hk : p.1 = k0
    · have hne : ¬ p.1 = k := fun e => h (e ▸ hk)
      simp only [List.filter_cons, hk, ne_eq, not_true_eq_false, decide_False]
      simp only [hasKey, List.any_cons, hne, decide_False, Bool.false_or] at ih ⊢
      simpa using ih
    · simp only [List.filter_cons, hk, ne_eq, not_false_eq_true, decide_True, if_true]
      simp only [hasKey, List.any_cons] at ih ⊢
      rw [ih]

/-- A key that the object does not define reads as `undefined`. -/
theorem get_of_hasKey_false (r : Record) (k : String) (h : hasKey r k = false) :
    get r k = .undefined := by
  induction r using List.reverseRecOn with
  | nil => rfl
  | append_singleton r p ih =>
    obtain ⟨k', v⟩ := p
    simp only [hasKey, List.any_append, List.any_cons, List.any_nil, Bool.or_false,
      Bool.or_eq_false_iff, decide_eq_false_iff_not] at h
    rw [get_append_singleton, if_neg h.2]
    exact ih (by simpa [hasKey] using h.1)

/-- The literal `{ id: e, ...data }` read at a key: the payload wins wherever
it defines the key. -/
theorem get_id_cons (e : JsVal) (data : Record) (k : String) :
    get (("id", e) :: data) k
      = if hasKey data k then get data k else if k = "id" then e else .undefined := by
  induction data using List.reverseRecOn with
  | nil =>
    by_cases hk : k = "id"
    · subst hk; simp [get, hasKey]
    · have : ¬ "id" = k := fun e => hk e.symm
      simp [get, hasKey, hk, this]
  | append_singleton r p ih =>
    obtain ⟨k', v⟩ := p
    rw [← List.cons_append, get_append_singleton, get_append_singleton, ih]
    rw [hasKey_append_singleton]
    by_cases hk : k' = k
    · simp [hk]
    · simp [hk]

/-! ## Supporting lemmas on the remote store client -/

namespace TodoService

theorem getTodos_eq (net : Net) (log : Log) :
    getTodos net log
      = (getTodosSettled (net log listRequest), log ++ [(listRequest, net log listRequest)]) := rfl

/-- The `try` and `catch` around a request, shared by `addTodo`, `updateTodo`
and `deleteTodo`: the result is `settled` of the outcome, after one exchange. -/
theorem request_result (net : Net) (req : Request) (log : Log) :
    (match fetch net req log with
      | (.response res, log1) =>
        if res.status = 200 then ((.ok true : Except Thrown Bool), log1)
        else (.ok false, log1)
      | (.rejected _, log1) => (.ok false, log1))
      = (.ok (settled (net log req)), log ++ [(req, net log req)]) := by
  unfold fetch settled
  cases net log req with
  | rejected e => rfl
  | response res =>
    by_cases h : res.status = 200
    · simp [h]
    · simp [h]

theorem addTodo_eq (net : Net) (todo : JsVal) (log : Log) :
    addTodo net todo log
      = (.ok (settled (net log (storeRequest todo))),
          log ++ [(storeRequest todo, net log (storeRequest todo))]) :=
  request_result net (storeRequest todo) log

/-- The method `updateTodo` on an object, by the three cases of its `id`. -/
theorem updateTodo_obj (net : Net) (ref : Nat) (fields : Record) (log : Log) :
    updateTodo net (.obj ref fields) log
      = if truthy (get fields "id") = false then
          (.error (.error "todo.id is required"), log)
        else if stringifies (get fields "id") = false then (.error .typeError, log)
        else
          (.ok (settled (net log
              (updateRequest (get fields "id") (restFields (.obj ref fields))))),
            log ++ [(updateRequest (get fields "id") (restFields (.obj ref fields)),
              net log (updateRequest (get fields "id") (restFields (.obj ref fields))))]) := by
  have hk : PropName.id.key = "id" := rfl
  simp only [updateTodo, prop, hk]
  cases ht : truthy (get fields "id") with
  | false => rfl
  | true =>
    cases hs : stringifies (get fields "id") with
    | false => rfl
    | true =>
      simp only [Bool.not_true, Bool.false_eq_true, if_false]
      exact request_result net _ log

/-- The method `deleteTodo` once the identifier is resolved, by the three
cases of that identifier. -/
theorem deleteTodo_resolved (net : Net) (todoOrId rid : JsVal) (log : Log)
    (h : resolveId todoOrId = .ok rid) :
    deleteTodo net todoOrId log
      = if truthy rid = false then (.error (.error "todo.id is required"), log)
        else if stringifies rid = false then (.error .typeError, log)
        else
          (.ok (settled (net log (deleteRequest rid))),
            log ++ [(deleteRequest rid, net log (deleteRequest rid))]) := by
  simp only [deleteTodo, h]
  cases ht : truthy rid with
  | false => rfl
  | true =>
    cases hs : stringifies rid with
    | false => rfl
    | true =>
      simp only [Bool.not_true, Bool.false_eq_true, if_false]
      exact request_result net _ log

theorem settled_eq_true_iff (o : FetchOutcome) :
    settled o = true ↔ ∃ res, o = .response res ∧ res.status = 200 := by
  cases o with
  | rejected e => simp [settled]
  | response res => simp [settled]

/-- A call of `deleteTodo` with a non-empty string sends one DELETE request. -/
theorem deleteTodo_str (net : Net) (s : String) (hs : s ≠ "") (log : Log) :
    deleteTodo net (.str s) log
      = (.ok (settled (net log (deleteRequest (.str s)))),
          log ++ [(deleteRequest (.str s), net log (deleteRequest (.str s)))]) := by
  have ht : truthy (.str s) = true := by simp [truthy, hs]
  have hc : stringifies (.str s) = true := rfl
  rw [deleteTodo_resolved net (.str s) (.str s) log rfl, ht, hc]
  rfl

/-- The loop over records whose ids are non-empty strings runs to its end
and sends the DELETE requests in the order of the list. -/
theorem deleteEach_of_string_ids (net : Net) (all : List Record)
    (h : ∀ r ∈ all, ∃ s : String, get r "id" = .str s ∧ s ≠ "") (log : Log) :
    (deleteEach net all log).1 = .ok () ∧
    (deleteEach net all log).2.map Prod.fst
      = log.map Prod.fst ++ all.map (fun r => deleteRequest (get r "id")) := by
  induction all generalizing log with
  | nil => simp [deleteEach]
  | cons r rest ih =>
    obtain ⟨s, hid, hs⟩ := h r (List.mem_cons_self _ _)
    have hrest : ∀ r' ∈ rest, ∃ s : String, get r' "id" = .str s ∧ s ≠ "" :=
      fun r' hr' => h r' (List.mem_cons_of_mem _ hr')
    have ih' := ih hrest (log ++ [(deleteRequest (.str s), net log (deleteRequest (.str s)))])
    simp only [deleteEach, hid, deleteTodo_str net s hs log]
    refine ⟨ih'.1, ?_⟩
    rw [ih'.2]
    simp [hid]

/-- The callback on an entry that is an object. -/
theorem toTodo_obj (ref : Nat) (fields : Record) :
    toTodo (.obj ref fields)
      = .ok (("id", get fields "entry_id") :: ownProps (get fields "data")) := rfl

/-- On an array of objects `map` gives one record per entry, in the order of
the entries. -/
theorem mapTodos_objects (entries : List (Nat × Record)) :
    mapTodos (entries.map (fun p => JsVal.obj p.1 p.2))
      = .ok (entries.map
          (fun p => ("id", get p.2 "entry_id") :: ownProps (get p.2 "data"))) := by
  induction entries with
  | nil => rfl
  | cons p rest ih =>
    simp only [List.map_cons, mapTodos, toTodo_obj, ih]

/-- The record built from an entry: its `id` is the entry identifier when the
payload defines no `id` and the `id` of the payload when it does; every other
key reads as in the payload. -/
theorem record_of_entry (entry_id : JsVal) (payload : Record) :
    (hasKey payload "id" = false → get (("id", entry_id) :: payload) "id" = entry_id) ∧
    (hasKey payload "id" = true → get (("id", entry_id) :: payload) "id" = get payload "id") ∧
    (∀ k, k ≠ "id" → get (("id", entry_id) :: payload) k = get payload k) := by
  refine ⟨?_, ?_, ?_⟩
  · intro h
    rw [get_id_cons, h]
    simp
  · intro h
    rw [get_id_cons, h]
    simp
  · intro k hk
    rw [get_id_cons]
    cases h : hasKey payload k with
    | true => simp
    | false => simp [hk, get_of_hasKey_false payload k h]

end TodoService

/-! ## The remote store client: the claims -/

/-- C1 (the code departs from the claim): the list response
`{ data: [ { entry_id: "e1", data: { id: "x", name: "a" } } ] }` with status
200 makes `getTodos` return one record, and the `id` of that record is the
payload field `"x"`, not the entry identifier `"e1"`: the spread `...data`
comes after `id: entry_id` in the literal and overrides it. -/
theorem getTodos_payload_id_overrides_entry_id :
    (TodoService.getTodos (constNet (jsonResponse 200 bodyWithPayloadId)) []).1
      = .ok [[("id", .str "e1"), ("id", .str "x"), ("name", .str "a")]] ∧
    get [("id", .str "e1"), ("id", .str "x"), ("name", .str "a")] "id" = .str "x" ∧
    get [("id", .str "e1"), ("id", .str "x"), ("name", .str "a")] "id" ≠ .str "e1" := by
  refine ⟨rfl, rfl, ?_⟩
  intro h
  have h' : JsVal.str "x" = JsVal.str "e1" := h
  simp at h'

/-- C2: `updateTodo` on a record whose `id` is missing or falsy (the empty
string included) throws `Error("todo.id is required")` and leaves the log of
requests as it was.  On a record whose `id` is truthy and converts to a
string, which every non-empty string does, it appends exactly one exchange, a
PUT request whose URL interpolates that `id` and whose body is
`{ data: rest }`, where `rest` lacks `id` and agrees with the record on every
other key; it then returns `true` exactly when the response has status 200.
A truthy `id` whose conversion to a string throws makes the method throw
before any request. -/
theorem updateTodo_requires_id (net : Net) (ref : Nat) (fields : Record) (log : Log) :
    ((hasKey fields "id" = false ∨ truthy (get fields "id") = false) →
      TodoService.updateTodo net (.obj ref fields) log
        = (.error (.error "todo.id is required"), log)) ∧
    (∀ s : String, get fields "id" = .str s → s ≠ "" →
      truthy (get fields "id") = true ∧ stringifies (get fields "id") = true) ∧
    (truthy (get fields "id") = true → stringifies (get fields "id") = true →
      ∃ (rest : Record) (req : Request),
        req.method = .PUT ∧
        req.url = { text := BASE_URL ++ "/" ++ CONTRACT_KEY ++ "/data/" ++ TABLE ++ "/update/"
                    key := some (get fields "id") } ∧
        req.body = some (.update rest) ∧
        hasKey rest "id" = false ∧
        (∀ k, k ≠ "id" → get rest k = get fields k ∧ hasKey rest k = hasKey fields k) ∧
        TodoService.updateTodo net (.obj ref fields) log
          = (.ok (TodoService.settled (net log req)), log ++ [(req, net log req)]) ∧
        (TodoService.settled (net log req) = true
          ↔ ∃ res, net log req = .response res ∧ res.status = 200)) ∧
    (truthy (get fields "id") = true → stringifies (get fields "id") = false →
      TodoService.updateTodo net (.obj ref fields) log = (.error .typeError, log)) := by
  refine ⟨?_, ?_, ?_, ?_⟩
  · intro h
    have hf : truthy (get fields "id") = false := by
      rcases h with h | h
      · rw [get_of_hasKey_false _ _ h]; rfl
      · exact h
    rw [TodoService.updateTodo_obj, hf]
    rfl
  · intro s hs hne
    rw [hs]
    exact ⟨by simp [truthy, hne], rfl⟩
  · intro ht hc
    refine ⟨TodoService.restFields (.obj ref fields),
      TodoService.updateRequest (get fields "id") (TodoService.restFields (.obj ref fields)),
      rfl, rfl, rfl, ?_, ?_, ?_, TodoService.settled_eq_true_iff _⟩
    · exact hasKey_filter_self fields "id"
    · intro k hk
      exact ⟨get_filter_ne fields "id" k hk, hasKey_filter_ne fields "id" k hk⟩
    · rw [TodoService.updateTodo_obj, ht, hc]
      rfl
  · intro ht hc
    rw [TodoService.updateTodo_obj, ht, hc]
    rfl

/-- C2 at the two records of the claim, at `{ id: "e1", name: "Y" }` with a
store that answers 200, and at `{ id: { toString: 1 }, name: "x" }`. -/
theorem updateTodo_requires_id_witness :
    TodoService.updateTodo (constNet (jsonResponse 200 .null)) todoNoId []
      = (.error (.error "todo.id is required"), []) ∧
    TodoService.updateTodo (constNet (jsonResponse 200 .null)) todoEmptyId []
      = (.error (.error "todo.id is required"), []) ∧
    (∃ req : Request, req.method = .PUT ∧
      req.url.key = some (.str "e1") ∧
      req.body = some (.update [("name", .str "Y")]) ∧
      TodoService.updateTodo (constNet (jsonResponse 200 .null)) todoE1 []
        = (.ok true, [(req, jsonResponse 200 .null)])) ∧
    TodoService.updateTodo (constNet (jsonResponse 200 .null)) todoUnprintableId []
      = (.error .typeError, []) :=
  ⟨(updateTodo_requires_id _ 0 [("name", .str "no id")] []).1 (Or.inl rfl),
   (updateTodo_requires_id _ 0 [("id", .str ""), ("name", .str "x")] []).1 (Or.inr rfl),
   ⟨TodoService.updateRequest (.str "e1") [("name", .str "Y")], rfl, rfl, rfl, rfl⟩,
   (updateTodo_requires_id _ 0 [("id", .obj 1 [("toString", .num 1)]), ("name", .str "x")]
      []).2.2.2 rfl rfl⟩

/-- C9: `addTodo` never throws: for every payload and every way the request
settles it returns a boolean after exactly one POST request, and that boolean
is `true` exactly when a response arrived with status 200; a rejection and
every other status give `false`. -/
theorem addTodo_true_iff_status_200 (net : Net) (todo : JsVal) (log : Log) :
    TodoService.addTodo net todo log
      = (.ok (TodoService.settled (net log (TodoService.storeRequest todo))),
          log ++ [(TodoService.storeRequest todo, net log (TodoService.storeRequest todo))]) ∧
    (TodoService.storeRequest todo).method = .POST ∧
    ((TodoService.addTodo net todo log).1 = .ok true ↔
      ∃ res, net log (TodoService.storeRequest todo) = .response res ∧ res.status = 200) ∧
    (∀ e, net log (TodoService.storeRequest todo) = .rejected e →
      (TodoService.addTodo net todo log).1 = .ok false) ∧
    (∀ res, net log (TodoService.storeRequest todo) = .response res → res.status ≠ 200 →
      (TodoService.addTodo net todo log).1 = .ok false) := by
  refine ⟨TodoService.addTodo_eq net todo log, rfl, ?_, ?_, ?_⟩
  · rw [TodoService.addTodo_eq, ← TodoService.settled_eq_true_iff]
    simp
  · intro e he
    rw [TodoService.addTodo_eq, he]
    rfl
  · intro res he hs
    rw [TodoService.addTodo_eq, he]
    simp [TodoService.settled, hs]

/-- C9 at a response with status 200, a response with status 500 and a
rejected request. -/
theorem addTodo_true_iff_status_200_witness :
    (TodoService.addTodo (constNet (jsonResponse 200 .null)) (.obj 0 [("name", .str "X")])
        []).1 = .ok true ∧
    (TodoService.addTodo (constNet (jsonResponse 500 .null)) (.obj 0 [("name", .str "X")])
        []).1 = .ok false ∧
    (TodoService.addTodo (constNet (.rejected (.rejected "Network request failed")))
        (.obj 0 [("name", .str "X")]) []).1 = .ok false :=
  ⟨(addTodo_true_iff_status_200 (constNet (jsonResponse 200 .null))
      (.obj 0 [("name", .str "X")]) []).2.2.1.mpr
      ⟨{ status := 200, text := "", json := .ok .null }, rfl, rfl⟩,
   (addTodo_true_iff_status_200 (constNet (jsonResponse 500 .null))
      (.obj 0 [("name", .str "X")]) []).2.2.2.2
      { status := 500, text := "", json := .ok .null } rfl (by decide),
   (addTodo_true_iff_status_200 (constNet (.rejected (.rejected "Network request failed")))
      (.obj 0 [("name", .str "X")]) []).2.2.2.1 _ rfl⟩

/-- C3 (counterexample): the listing succeeds with the records `A`, `B`, `C`
where the `id` of `B` is the empty string; `deleteAllTodos` sends the DELETE
request for `A`, then `deleteTodo("")` throws, the loop is left and the result
is `false`, although the listing succeeded. -/
theorem deleteAllTodos_false_though_listing_succeeds :
    (TodoService.getTodos (constNet (jsonResponse 200 bodyEmptyEntryId)) []).1
      = .ok [[("id", .str "a"), ("name", .str "A")], [("id", .str ""), ("name", .str "B")],
          [("id", .str "c"), ("name", .str "C")]] ∧
    (TodoService.deleteAllTodos (constNet (jsonResponse 200 bodyEmptyEntryId)) []).1 = false ∧
    (TodoService.deleteAllTodos (constNet (jsonResponse 200 bodyEmptyEntryId)) []).2.map Prod.fst
      = [TodoService.listRequest, TodoService.deleteRequest (.str "a")] :=
  ⟨rfl, rfl, rfl⟩

/-- C3 (amended): when the listing succeeds with records whose ids are all
non-empty strings, `deleteAllTodos` sends, after the list request, the DELETE
requests for the ids of the records in the listed order, one after the other,
and returns `true` however each of them settles; when the listing fails it
returns `false` after the list request alone. -/
theorem deleteAllTodos_in_listed_order (net : Net) (log : Log) :
    (∀ all : List Record, (TodoService.getTodos net log).1 = .ok all →
      (∀ r ∈ all, ∃ s : String, get r "id" = .str s ∧ s ≠ "") →
      (TodoService.deleteAllTodos net log).1 = true ∧
      (TodoService.deleteAllTodos net log).2.map Prod.fst
        = log.map Prod.fst ++ TodoService.listRequest
            :: all.map (fun r => TodoService.deleteRequest (get r "id"))) ∧
    (∀ e, (TodoService.getTodos net log).1 = .error e →
      TodoService.deleteAllTodos net log
        = (false, log ++ [(TodoService.listRequest, net log TodoService.listRequest)])) := by
  constructor
  · intro all hall hids
    rw [TodoService.getTodos_eq] at hall
    have hall' : TodoService.getTodosSettled (net log TodoService.listRequest) = .ok all := hall
    have hd := TodoService.deleteEach_of_string_ids net all hids
      (log ++ [(TodoService.listRequest, net log TodoService.listRequest)])
    unfold TodoService.deleteAllTodos
    rw [TodoService.getTodos_eq, hall']
    simp only
    generalize TodoService.deleteEach net all
      (log ++ [(TodoService.listRequest, net log TodoService.listRequest)]) = res at hd
    obtain ⟨r1, r2⟩ := res
    simp only at hd
    rw [hd.1]
    refine ⟨rfl, ?_⟩
    simp only
    rw [hd.2]
    simp
  · intro e he
    rw [TodoService.getTodos_eq] at he
    have he' : TodoService.getTodosSettled (net log TodoService.listRequest) = .error e := he
    unfold TodoService.deleteAllTodos
    rw [TodoService.getTodos_eq, he']

/-- C3 (amended) at the records `A`, `B`, `C` with every DELETE answered by
status 500. -/
theorem deleteAllTodos_in_listed_order_witness :
    (TodoService.deleteAllTodos (listOnlyNet bodyABC) []).1 = true ∧
    (TodoService.deleteAllTodos (listOnlyNet bodyABC) []).2.map Prod.fst
      = [TodoService.listRequest, TodoService.deleteRequest (.str "a"),
          TodoService.deleteRequest (.str "b"), TodoService.deleteRequest (.str "c")] :=
  (deleteAllTodos_in_listed_order (listOnlyNet bodyABC) []).1
    [[("id", .str "a"), ("name", .str "A")], [("id", .str "b"), ("name", .str "B")],
      [("id", .str "c"), ("name", .str "C")]]
    rfl
    (by
      intro r hr
      simp only [List.mem_cons, List.mem_singleton, List.not_mem_nil, or_false] at hr
      rcases hr with rfl | rfl | rfl
      · exact ⟨"a", rfl, by decide⟩
      · exact ⟨"b", rfl, by decide⟩
      · exact ⟨"c", rfl, by decide⟩)

/-! ## Supporting lemmas on the coordinator -/

namespace TodoProvider

/-- The state `fetchTodos` ends in, from how the list request settled. -/
theorem fetchTodos_eq (net : Net) (s : State) (log : Log) :
    fetchTodos net s log
      = (match TodoService.getTodosSettled (net log TodoService.listRequest) with
          | .ok data => { todos := data, loading := false, error := s.error }
          | .error _ =>
            { todos := s.todos, loading := false, error := some "Failed to fetch todos." },
         log ++ [(TodoService.listRequest, net log TodoService.listRequest)]) := by
  unfold fetchTodos
  rw [TodoService.getTodos_eq]
  cases TodoService.getTodosSettled (net log TodoService.listRequest) <;> rfl

/-- The function `createTodo` is the POST request followed by `fetchTodos`. -/
theorem createTodo_eq (net : Net) (todoData : JsVal) (s : State) (log : Log) :
    createTodo net todoData s log
      = fetchTodos net s
          (log ++ [(TodoService.storeRequest todoData,
            net log (TodoService.storeRequest todoData))]) := by
  unfold createTodo
  rw [TodoService.addTodo_eq]
  simp only [fetchTodos_eq]
  cases TodoService.getTodosSettled _ <;> rfl

/-- The service call `deleteTodo` either throws before any request or sends
one DELETE request. -/
theorem service_deleteTodo_cases (net : Net) (id : JsVal) (log : Log) :
    (∃ e, TodoService.deleteTodo net id log = (.error e, log)) ∨
    (∃ rid, TodoService.deleteTodo net id log
      = (.ok (TodoService.settled (net log (TodoService.deleteRequest rid))),
          log ++ [(TodoService.deleteRequest rid, net log (TodoService.deleteRequest rid))])) := by
  cases hr : TodoService.resolveId id with
  | error e => exact Or.inl ⟨e, by simp only [TodoService.deleteTodo, hr]⟩
  | ok rid =>
    rw [TodoService.deleteTodo_resolved net id rid log hr]
    cases ht : truthy rid with
    | false => exact Or.inl ⟨_, rfl⟩
    | true =>
      cases hs : stringifies rid with
      | false => exact Or.inl ⟨_, rfl⟩
      | true => exact Or.inr ⟨rid, rfl⟩

/-- The state `deleteTodo` ends in, from what the service call gave. -/
theorem deleteTodo_eq (net : Net) (id : JsVal) (s : State) (log : Log) :
    deleteTodo net id s log
      = ({ todos :=
            match (TodoService.deleteTodo net id log).1 with
            | .ok true => s.todos.filter (fun t => !strictEq (get t "id") id)
            | _ => s.todos
           loading := false
           error := s.error },
         (TodoService.deleteTodo net id log).2) := by
  unfold deleteTodo
  generalize TodoService.deleteTodo net id log = r
  obtain ⟨r1, r2⟩ := r
  cases r1 with
  | error e => simp
  | ok b => cases b <;> simp

/-- The function `updateTodo` on an argument on which the service does not
throw is the PUT request followed by `fetchTodos`. -/
theorem updateTodo_of_id (net : Net) (todo : JsVal) (s : State) (log : Log)
    (h : updateThrows (.updateTodo todo) = false) :
    ∃ req : Request, req.method = .PUT ∧
      updateTodo net todo s log = fetchTodos net s (log ++ [(req, net log req)]) := by
  unfold updateThrows at h
  cases hp : prop todo .id with
  | error e => simp [hp] at h
  | ok id =>
    simp only [hp, Bool.or_eq_false_iff, Bool.not_eq_false_eq_eq_true, Bool.not_eq_eq_eq_not,
      Bool.not_false] at h
    refine ⟨TodoService.updateRequest id (TodoService.restFields todo), rfl, ?_⟩
    unfold updateTodo TodoService.updateTodo
    simp only [hp, h.1, h.2, Bool.not_true, Bool.false_eq_true, if_false]
    rw [TodoService.request_result]
    simp only [fetchTodos_eq]
    cases TodoService.getTodosSettled _ <;> rfl

/-- The function `updateTodo` on an argument on which the service throws
sends nothing and sets its own message. -/
theorem updateTodo_throwing (net : Net) (todo : JsVal) (s : State) (log : Log)
    (h : updateThrows (.updateTodo todo) = true) :
    updateTodo net todo s log
      = ({ todos := s.todos, loading := false, error := some "Failed to update todo." },
         log) := by
  unfold updateThrows at h
  unfold updateTodo TodoService.updateTodo
  cases hp : prop todo .id with
  | error e => rfl
  | ok id =>
    simp only [hp] at h
    cases ht : truthy id with
    | false => simp [ht]
    | true =>
      cases hs : stringifies id with
      | false => simp [ht, hs]
      | true => simp [ht, hs] at h

/-- What one operation adds to the log, and when it keeps `error`. -/
theorem step_error (net : Net) (op : Op) (s : State) (log : Log) :
    ∃ added : Log, (step net op (s, log)).2 = log ++ added ∧
      ((∀ x ∈ added, listFailed x = false) → updateThrows op = false →
        (step net op (s, log)).1.error = s.error) := by
  have hfetch : ∀ (s : State) (log : Log),
      ∃ added : Log, (fetchTodos net s log).2 = log ++ added ∧
        ((∀ x ∈ added, listFailed x = false) → (fetchTodos net s log).1.error = s.error) := by
    intro s log
    refine ⟨[(TodoService.listRequest, net log TodoService.listRequest)], ?_, ?_⟩
    · rw [fetchTodos_eq]
    · intro hall
      have hx := hall _ (List.mem_singleton_self _)
      rw [fetchTodos_eq]
      unfold listFailed at hx
      cases hg : TodoService.getTodosSettled (net log TodoService.listRequest) with
      | error e =>
        rw [hg] at hx
        have hm : TodoService.listRequest.method = Method.GET := rfl
        simp [hm] at hx
      | ok data => rfl
  cases op with
  | refreshTodos =>
    obtain ⟨added, h1, h2⟩ := hfetch s log
    exact ⟨added, h1, fun hall _ => h2 hall⟩
  | createTodo todoData =>
    obtain ⟨added, h1, h2⟩ := hfetch s
      (log ++ [(TodoService.storeRequest todoData, net log (TodoService.storeRequest todoData))])
    refine ⟨(TodoService.storeRequest todoData, net log (TodoService.storeRequest todoData))
      :: added, ?_, ?_⟩
    · simp only [step, createTodo_eq, h1, List.append_assoc, List.singleton_append]
    · intro hall _
      simp only [step, createTodo_eq]
      exact h2 (fun x hx => hall x (List.mem_cons_of_mem _ hx))
  | updateTodo todo =>
    cases hl : updateThrows (.updateTodo todo) with
    | true =>
      refine ⟨[], ?_, ?_⟩
      · simp only [step, updateTodo_throwing net todo s log hl, List.append_nil]
      · intro _ h
        exact absurd h (by simp)
    | false =>
      obtain ⟨req, _, hreq⟩ := updateTodo_of_id net todo s log hl
      obtain ⟨added, h1, h2⟩ := hfetch s (log ++ [(req, net log req)])
      refine ⟨(req, net log req) :: added, ?_, ?_⟩
      · simp only [step, hreq, h1, List.append_assoc, List.singleton_append]
      · intro hall _
        simp only [step, hreq]
        exact h2 (fun x hx => hall x (List.mem_cons_of_mem _ hx))
  | deleteTodo id =>
    rcases service_deleteTodo_cases net id log with ⟨e, he⟩ | ⟨rid, he⟩
    · refine ⟨[], ?_, ?_⟩
      · simp only [step, deleteTodo_eq, he, List.append_nil]
      · intro _ _
        simp only [step, deleteTodo_eq]
    · refine ⟨[(TodoService.deleteRequest rid, net log (TodoService.deleteRequest rid))], ?_, ?_⟩
      · simp only [step, deleteTodo_eq, he]
      · intro _ _
        simp only [step, deleteTodo_eq]

/-- What a run adds to the log, and when it keeps `error`. -/
theorem run_error (net : Net) (ops : List Op) (s : State) (log : Log) :
    ∃ added : Log, (run net ops (s, log)).2 = log ++ added ∧
      ((∀ x ∈ added, listFailed x = false) → (∀ op ∈ ops, updateThrows op = false) →
        (run net ops (s, log)).1.error = s.error) := by
  induction ops generalizing s log with
  | nil => exact ⟨[], by simp [run], fun _ _ => rfl⟩
  | cons op ops ih =>
    obtain ⟨a1, h1, e1⟩ := step_error net op s log
    obtain ⟨a2, h2, e2⟩ := ih (step net op (s, log)).1 (step net op (s, log)).2
    have hrun : run net (op :: ops) (s, log)
        = run net ops ((step net op (s, log)).1, (step net op (s, log)).2) := rfl
    refine ⟨a1 ++ a2, ?_, ?_⟩
    · rw [hrun, h2, h1, List.append_assoc]
    · intro hall hops
      rw [hrun, e2 (fun x hx => hall x (List.mem_append_right _ hx))
        (fun o ho => hops o (List.mem_cons_of_mem _ ho))]
      exact e1 (fun x hx => hall x (List.mem_append_left _ hx)) (hops op (List.mem_cons_self _ _))

end TodoProvider

/-! ## The coordinator: the claims -/

/-- C4 (counterexample): from a state whose `error` holds a message, a
refresh whose listing succeeds (status 200, body `{ data: [] }`) ends with
`error` still holding that message, not `null`: `fetchTodos` calls
`setError` only in its `catch`. -/
theorem refresh_keeps_stale_error :
    (TodoService.getTodos (constNet (jsonResponse 200 bodyEmpty)) []).1 = .ok [] ∧
    (TodoProvider.fetchTodos (constNet (jsonResponse 200 bodyEmpty)) staleErrorState []).1.error
      = some "Failed to fetch todos." ∧
    (TodoProvider.fetchTodos (constNet (jsonResponse 200 bodyEmpty)) staleErrorState []).1.error
      ≠ none := by
  refine ⟨rfl, rfl, ?_⟩
  intro h
  have h' : (some "Failed to fetch todos." : Option String) = none := h
  simp at h'

/-- C4 (amended): for every state and every successful listing `L`, the
refresh ends with `todos` equal to `L`, `loading` false and `error` exactly
as it was before, after the one list request. -/
theorem fetchTodos_success (net : Net) (s : State) (log : Log) (L : List Record)
    (h : (TodoService.getTodos net log).1 = .ok L) :
    TodoProvider.fetchTodos net s log
      = ({ todos := L, loading := false, error := s.error },
         log ++ [(TodoService.listRequest, net log TodoService.listRequest)]) := by
  rw [TodoService.getTodos_eq] at h
  have h' : TodoService.getTodosSettled (net log TodoService.listRequest) = .ok L := h
  rw [TodoProvider.fetchTodos_eq, h']

/-- C4 (amended) at the listing `A`, `B`, `C` from a state with a stale error. -/
theorem fetchTodos_success_witness :
    TodoProvider.fetchTodos (constNet (jsonResponse 200 bodyABC)) staleErrorState []
      = ({ todos := [[("id", .str "a"), ("name", .str "A")],
            [("id", .str "b"), ("name", .str "B")], [("id", .str "c"), ("name", .str "C")]]
           loading := false
           error := some "Failed to fetch todos." },
         [(TodoService.listRequest, jsonResponse 200 bodyABC)]) :=
  fetchTodos_success (constNet (jsonResponse 200 bodyABC)) staleErrorState [] _ rfl

/-- C5: whenever `getTodos` throws, the refresh ends with `error` set to
`"Failed to fetch todos."`, `loading` false and `todos` as before; a response
whose status is not 200 and a rejected request both make it throw. -/
theorem fetchTodos_failure (net : Net) (s : State) (log : Log) :
    (∀ e, (TodoService.getTodos net log).1 = .error e →
      (TodoProvider.fetchTodos net s log).1
        = { todos := s.todos, loading := false, error := some "Failed to fetch todos." }) ∧
    (∀ res, net log TodoService.listRequest = .response res → res.status ≠ 200 →
      (TodoProvider.fetchTodos net s log).1
        = { todos := s.todos, loading := false, error := some "Failed to fetch todos." }) ∧
    (∀ e, net log TodoService.listRequest = .rejected e →
      (TodoProvider.fetchTodos net s log).1
        = { todos := s.todos, loading := false, error := some "Failed to fetch todos." }) := by
  refine ⟨?_, ?_, ?_⟩
  · intro e h
    rw [TodoService.getTodos_eq] at h
    have h' : TodoService.getTodosSettled (net log TodoService.listRequest) = .error e := h
    rw [TodoProvider.fetchTodos_eq, h']
  · intro res hres hs
    rw [TodoProvider.fetchTodos_eq, hres]
    simp [TodoService.getTodosSettled, hs]
  · intro e he
    rw [TodoProvider.fetchTodos_eq, he]
    rfl

/-- C5 at a response with status 500 and at a rejected request, from a
collection of two records. -/
theorem fetchTodos_failure_witness :
    (TodoProvider.fetchTodos (constNet (jsonResponse 500 .null)) stateAB []).1
      = { todos := stateAB.todos, loading := false, error := some "Failed to fetch todos." } ∧
    (TodoProvider.fetchTodos (constNet (.rejected (.rejected "Network request failed")))
        stateAB []).1
      = { todos := stateAB.todos, loading := false, error := some "Failed to fetch todos." } :=
  ⟨(fetchTodos_failure (constNet (jsonResponse 500 .null)) stateAB []).2.1
      { status := 500, text := "", json := .ok .null } rfl (by decide),
   (fetchTodos_failure (constNet (.rejected (.rejected "Network request failed")))
      stateAB []).2.2 _ rfl⟩

/-- C10: for every state, payload and store, `createTodo` appends exactly two
exchanges, the POST request and then the list request, and ends in the state
that `fetchTodos` alone produces from the outcome of that list request,
whatever the POST request gave: `todos` is the listing when it succeeds, and
`loading` is false. -/
theorem createTodo_is_create_then_refresh (net : Net) (todoData : JsVal) (s : State)
    (log : Log) :
    (TodoProvider.createTodo net todoData s log).2
      = log ++ [(TodoService.storeRequest todoData, net log (TodoService.storeRequest todoData)),
          (TodoService.listRequest,
            net (log ++ [(TodoService.storeRequest todoData,
              net log (TodoService.storeRequest todoData))]) TodoService.listRequest)] ∧
    (TodoService.storeRequest todoData).method = .POST ∧
    TodoService.listRequest.method = .GET ∧
    (TodoProvider.createTodo net todoData s log).1
      = (TodoProvider.fetchTodos
          (constNet (net (log ++ [(TodoService.storeRequest todoData,
            net log (TodoService.storeRequest todoData))]) TodoService.listRequest)) s []).1 ∧
    (∀ L, TodoService.getTodosSettled
        (net (log ++ [(TodoService.storeRequest todoData,
          net log (TodoService.storeRequest todoData))]) TodoService.listRequest) = .ok L →
      (TodoProvider.createTodo net todoData s log).1.todos = L) ∧
    (TodoProvider.createTodo net todoData s log).1.loading = false := by
  rw [TodoProvider.createTodo_eq]
  refine ⟨?_, rfl, rfl, ?_, ?_, ?_⟩
  · rw [TodoProvider.fetchTodos_eq]
    simp
  · rw [TodoProvider.fetchTodos_eq, TodoProvider.fetchTodos_eq]
    rfl
  · intro L hL
    rw [TodoProvider.fetchTodos_eq, hL]
  · rw [TodoProvider.fetchTodos_eq]
    cases TodoService.getTodosSettled _ <;> rfl

/-- C10 at a store that answers the POST with status 500 and the listing
with `A`, `B`, `C`. -/
theorem createTodo_is_create_then_refresh_witness :
    (TodoProvider.createTodo (listOnlyNet bodyABC) (.obj 0 [("name", .str "X")])
        stateAB []).1.todos
      = [[("id", .str "a"), ("name", .str "A")], [("id", .str "b"), ("name", .str "B")],
          [("id", .str "c"), ("name", .str "C")]] :=
  (createTodo_is_create_then_refresh (listOnlyNet bodyABC) (.obj 0 [("name", .str "X")])
    stateAB []).2.2.2.2.1 _ rfl

/-- C7: for every collection and every `id`, the coordinator function `deleteTodo`
makes the exchanges of the service call and no other (none at all, or one
DELETE request; never a list request), ends with `loading` false and `error`
as before, and with `todos` equal to the previous collection filtered by
`t.id !== id` when the service call returned `true`, and equal to the
previous collection when it returned `false` or threw.  The filtered
collection keeps the records in their order and contains exactly the previous
records whose `id` is not strictly equal to `id`. -/
theorem deleteTodo_filters_on_success (net : Net) (id : JsVal) (s : State) (log : Log) :
    (TodoProvider.deleteTodo net id s log).2 = (TodoService.deleteTodo net id log).2 ∧
    ((TodoProvider.deleteTodo net id s log).2 = log ∨
      ∃ rid o, (TodoProvider.deleteTodo net id s log).2
          = log ++ [(TodoService.deleteRequest rid, o)] ∧
        (TodoService.deleteRequest rid).method = .DELETE) ∧
    (TodoProvider.deleteTodo net id s log).1.loading = false ∧
    (TodoProvider.deleteTodo net id s log).1.error = s.error ∧
    ((TodoService.deleteTodo net id log).1 = .ok true →
      (TodoProvider.deleteTodo net id s log).1.todos
        = s.todos.filter (fun t => !strictEq (get t "id") id) ∧
      List.Sublist (TodoProvider.deleteTodo net id s log).1.todos s.todos ∧
      ∀ t, t ∈ (TodoProvider.deleteTodo net id s log).1.todos
        ↔ t ∈ s.todos ∧ strictEq (get t "id") id = false) ∧
    ((TodoService.deleteTodo net id log).1 = .ok false →
      (TodoProvider.deleteTodo net id s log).1.todos = s.todos) ∧
    (∀ e, (TodoService.deleteTodo net id log).1 = .error e →
      (TodoProvider.deleteTodo net id s log).1.todos = s.todos) := by
  rw [TodoProvider.deleteTodo_eq]
  refine ⟨rfl, ?_, rfl, rfl, ?_, ?_, ?_⟩
  · rcases TodoProvider.service_deleteTodo_cases net id log with ⟨e, he⟩ | ⟨rid, he⟩
    · left; simp only; rw [he]
    · right; exact ⟨rid, _, by simp only; rw [he], rfl⟩
  · intro h
    have hres : (match (TodoService.deleteTodo net id log).1 with
        | .ok true => s.todos.filter (fun t => !strictEq (get t "id") id)
        | _ => s.todos) = s.todos.filter (fun t => !strictEq (get t "id") id) := by
      rw [h]
    simp only [hres]
    refine ⟨trivial, List.filter_sublist _, ?_⟩
    intro t
    simp [List.mem_filter]
  · intro h
    simp only [h]
  · intro e h
    simp only [h]

/-- C7 at the collection `A`, `B`: a successful delete of `"a"` leaves `B`; a
delete the store answers with status 500 leaves `A`, `B`; a delete with the
empty string, on which the service throws, leaves `A`, `B`. -/
theorem deleteTodo_filters_on_success_witness :
    (TodoProvider.deleteTodo (constNet (jsonResponse 200 .null)) (.str "a") stateAB []).1.todos
      = [[("id", .str "b"), ("name", .str "B")]] ∧
    (TodoProvider.deleteTodo (constNet (jsonResponse 500 .null)) (.str "a") stateAB []).1.todos
      = stateAB.todos ∧
    (TodoProvider.deleteTodo (constNet (jsonResponse 200 .null)) (.str "") stateAB []).1.todos
      = stateAB.todos :=
  ⟨((deleteTodo_filters_on_success (constNet (jsonResponse 200 .null)) (.str "a") stateAB
      []).2.2.2.2.1 rfl).1,
   (deleteTodo_filters_on_success (constNet (jsonResponse 500 .null)) (.str "a") stateAB
      []).2.2.2.2.2.1 rfl,
   (deleteTodo_filters_on_success (constNet (jsonResponse 200 .null)) (.str "") stateAB
      []).2.2.2.2.2.2 _ rfl⟩

/-- C8: when no record of the collection has an `id` strictly equal to `id`,
the coordinator call `deleteTodo(id)` ends with the collection exactly as it was,
however the remote delete settles; and for every collection, a second
`deleteTodo(id)` after a first one, both with a service call that returned
`true`, ends with the collection the first one produced. -/
theorem deleteTodo_absent_id_unchanged (net : Net) (id : JsVal) (s : State) (log : Log) :
    ((∀ t ∈ s.todos, strictEq (get t "id") id = false) →
      (TodoProvider.deleteTodo net id s log).1.todos = s.todos) ∧
    ((TodoService.deleteTodo net id log).1 = .ok true →
      (TodoService.deleteTodo net id (TodoProvider.deleteTodo net id s log).2).1 = .ok true →
      (TodoProvider.deleteTodo net id (TodoProvider.deleteTodo net id s log).1
          (TodoProvider.deleteTodo net id s log).2).1.todos
        = (TodoProvider.deleteTodo net id s log).1.todos) := by
  constructor
  · intro h
    rw [TodoProvider.deleteTodo_eq]
    have hf : s.todos.filter (fun t => !strictEq (get t "id") id) = s.todos := by
      rw [List.filter_eq_self]
      intro t ht
      simp [h t ht]
    simp only
    split <;> simp only [hf]
  · intro h1 h2
    rw [TodoProvider.deleteTodo_eq net id (TodoProvider.deleteTodo net id s log).1]
    simp only [h2]
    rw [TodoProvider.deleteTodo_eq net id s log]
    simp only [h1, List.filter_filter, Bool.and_self]

/-- C8 at the collection `A`, `B` and the id `"zz"`, whether the store
answers 200 or 500, and at two successive successful deletes of `"a"`. -/
theorem deleteTodo_absent_id_unchanged_witness :
    (TodoProvider.deleteTodo (constNet (jsonResponse 200 .null)) (.str "zz") stateAB []).1.todos
      = stateAB.todos ∧
    (TodoProvider.deleteTodo (constNet (jsonResponse 500 .null)) (.str "zz") stateAB []).1.todos
      = stateAB.todos ∧
    (TodoProvider.deleteTodo (constNet (jsonResponse 200 .null)) (.str "a")
        (TodoProvider.deleteTodo (constNet (jsonResponse 200 .null)) (.str "a") stateAB []).1
        (TodoProvider.deleteTodo (constNet (jsonResponse 200 .null)) (.str "a") stateAB
          []).2).1.todos
      = (TodoProvider.deleteTodo (constNet (jsonResponse 200 .null)) (.str "a") stateAB
          []).1.todos :=
  ⟨(deleteTodo_absent_id_unchanged (constNet (jsonResponse 200 .null)) (.str "zz") stateAB
      []).1 (by
        intro t ht
        simp only [stateAB, List.mem_cons, List.mem_singleton, List.not_mem_nil, or_false] at ht
        rcases ht with rfl | rfl <;> rfl),
   (deleteTodo_absent_id_unchanged (constNet (jsonResponse 500 .null)) (.str "zz") stateAB
      []).1 (by
        intro t ht
        simp only [stateAB, List.mem_cons, List.mem_singleton, List.not_mem_nil, or_false] at ht
        rcases ht with rfl | rfl <;> rfl),
   (deleteTodo_absent_id_unchanged (constNet (jsonResponse 200 .null)) (.str "a") stateAB
      []).2 rfl rfl⟩

/-- C6 (counterexample): from a state with no error, `updateTodo` called with
the record `{ name: "no id" }` ends with `error` set to
`"Failed to update todo."` although no request at all, hence no list
request, was made: the service throws on the missing `id` and the `catch` of
the coordinator calls `setError`. -/
theorem updateTodo_without_id_sets_error :
    TodoProvider.updateTodo (constNet (jsonResponse 200 bodyEmpty)) todoNoId idleState []
      = ({ todos := [], loading := false, error := some "Failed to update todo." }, []) ∧
    (TodoProvider.updateTodo (constNet (jsonResponse 200 bodyEmpty)) todoNoId idleState
        []).1.error ≠ idleState.error := by
  refine ⟨rfl, ?_⟩
  intro h
  have h' : (some "Failed to update todo." : Option String) = none := h
  simp at h'

/-- C6 (amended): for every state, every sequence of `refreshTodos`,
`createTodo`, `updateTodo` and `deleteTodo` calls and every store, the run
only appends to the log, and if no list request made during the run failed
and no `updateTodo` of the run was one on which the service throws before any
request, then `error` ends as it began, however the POST, PUT and DELETE
requests settled and whatever `deleteTodo` was called with.  The service
throws on the record of an `updateTodo` exactly when its `id` is missing or
falsy or cannot be converted to a string; such an `updateTodo` makes no
request and sets `error` to `"Failed to update todo."`. -/
theorem error_kept_unless_list_fails_or_update_throws (net : Net) (ops : List TodoProvider.Op)
    (s : State) (log : Log) :
    log <+: (TodoProvider.run net ops (s, log)).2 ∧
    ((∀ x ∈ (TodoProvider.run net ops (s, log)).2.drop log.length,
        TodoProvider.listFailed x = false) →
      (∀ op ∈ ops, TodoProvider.updateThrows op = false) →
      (TodoProvider.run net ops (s, log)).1.error = s.error) ∧
    (∀ (ref : Nat) (fields : Record),
      TodoProvider.updateThrows (.updateTodo (.obj ref fields)) = true ↔
        (truthy (get fields "id") = false ∨ stringifies (get fields "id") = false)) ∧
    (∀ todo, TodoProvider.updateThrows (.updateTodo todo) = true →
      TodoProvider.updateTodo net todo s log
        = ({ todos := s.todos, loading := false, error := some "Failed to update todo." },
           log)) := by
  obtain ⟨added, h1, h2⟩ := TodoProvider.run_error net ops s log
  refine ⟨⟨added, h1.symm⟩, ?_, ?_,
    fun todo h => TodoProvider.updateTodo_throwing net todo s log h⟩
  · intro hall hops
    rw [h1, List.drop_left] at hall
    exact h2 hall hops
  · intro ref fields
    have hk : PropName.id.key = "id" := rfl
    simp only [TodoProvider.updateThrows, prop, hk, Bool.or_eq_true, Bool.not_eq_true']

/-- C6 (amended) at a run whose POST, PUT and DELETE requests are all answered
with status 500, whose two last deletes make the service throw and whose list
requests succeed: the stale error stays; and at an `updateTodo` with the
record `{ id: { toString: 1 }, name: "x" }`: no request, and the message of
the update. -/
theorem error_kept_unless_list_fails_or_update_throws_witness :
    (TodoProvider.run (listOnlyNet bodyABC) sampleOps (staleErrorState, [])).1.error
      = some "Failed to fetch todos." ∧
    ((TodoProvider.run (listOnlyNet bodyABC) sampleOps (staleErrorState, [])).2.map
        (fun x => x.1.method))
      = [.POST, .GET, .PUT, .GET, .DELETE, .GET] ∧
    TodoProvider.updateTodo (listOnlyNet bodyABC) todoUnprintableId idleState []
      = ({ todos := [], loading := false, error := some "Failed to update todo." }, []) :=
  ⟨(error_kept_unless_list_fails_or_update_throws (listOnlyNet bodyABC) sampleOps staleErrorState
      []).2.1
      (fun x hx => by
        have hall : ((TodoProvider.run (listOnlyNet bodyABC) sampleOps
            (staleErrorState, [])).2.drop ([] : Log).length).all
              (fun x => !TodoProvider.listFailed x) = true := rfl
        simpa using List.all_eq_true.mp hall x hx)
      (fun op hop => by
        have hall : sampleOps.all (fun op => !TodoProvider.updateThrows op) = true := rfl
        simpa using List.all_eq_true.mp hall op hop),
   rfl,
   (error_kept_unless_list_fails_or_update_throws (listOnlyNet bodyABC) [] idleState
      []).2.2.2 todoUnprintableId rfl⟩

end Todo
